import Mathlib

/-!
Verification of the MLSP multiplayer low-latency sync protocol
(shallow embedding of src/server.py, src/packet_helper.py, src/constants.py).

Conventions of the embedding:
  - machine integers are Nat (timestamps, ids, counters); byte strings are
    List Nat with each element a byte value;
  - the wall clock (helpers.now_ms) is passed as an explicit Nat argument;
  - Python dicts keyed by grid cells are total functions (the grid is total
    over its fixed key set); insertion-ordered dicts whose ordering matters
    (counts, pending tables) are association lists in insertion order;
  - socket sends become values in the returned output list.
-/

namespace MLSP

/-! ## Authoritative state engine (src/server.py lines 79-80, 225-254) -/

/-- Cell state, src/server.py grid values ("UNCLAIMED" / "ACQUIRED"). -/
inductive CellState where
  | UNCLAIMED
  | ACQUIRED
deriving DecidableEq, Repr

/-- One grid cell: server.py stores dicts
    `{"state": ..., "owner": ..., "timestamp": ...}`; `owner` is `None`
    (here `none`) until acquired. Player ids are decimal strings in the
    source (`str(next_id)`); we carry the underlying natural number. -/
structure Cell where
  state : CellState
  owner : Option Nat
  timestamp : Nat
deriving DecidableEq, Repr

/-- src/constants.py line 20: `GRID_SIZE = 5`. -/
def GRID_SIZE : Nat := 5

/-- The grid: total map over (row, col) keys, src/server.py lines 79-80. -/
def Grid := Nat × Nat → Cell

/-- Initial grid value, src/server.py lines 79-80: every cell
    `{"state": "UNCLAIMED", "owner": None, "timestamp": 0}`. -/
def initGrid : Grid := fun _ => ⟨CellState.UNCLAIMED, none, 0⟩

/-- The membership test `cell in grid` of src/server.py line 231: the dict
    keys are exactly the pairs with both coordinates below GRID_SIZE. -/
def inRange (rc : Nat × Nat) : Bool := rc.1 < GRID_SIZE && rc.2 < GRID_SIZE

/-- An ACQUIRE_REQ as seen by the state engine: fields "cell", "id",
    "timestamp" of the request payload (src/server.py lines 227-229). -/
structure Req where
  cell : Nat × Nat
  pid : Nat
  ts : Nat
deriving DecidableEq, Repr

/-- The accept test of src/server.py line 234:
    `old["state"] == "UNCLAIMED" or ts < old["timestamp"]`. -/
def acceptClaim (old : Cell) (ts : Nat) : Prop :=
  old.state = CellState.UNCLAIMED ∨ ts < old.timestamp

instance (old : Cell) (ts : Nat) : Decidable (acceptClaim old ts) := by
  unfold acceptClaim; infer_instance

/-- Grid mutation of handle_acquire_request, src/server.py lines 231-235:
    out-of-range cells are ignored; an accepted claim writes
    `{"state": "ACQUIRED", "owner": pid, "timestamp": ts}` at the cell,
    a rejected one leaves the dict untouched. -/
def applyReq (g : Grid) (r : Req) : Grid :=
  if inRange r.cell then
    if acceptClaim (g r.cell) r.ts then
      fun rc => if rc = r.cell then ⟨CellState.ACQUIRED, some r.pid, r.ts⟩ else g rc
    else g
  else g

/-- Processing a whole sequence of ACQUIRE_REQs in arrival order. -/
def applyReqs (g : Grid) (l : List Req) : Grid :=
  l.foldl applyReq g

theorem applyReq_apply (g : Grid) (r : Req) (rc : Nat × Nat) :
    applyReq g r rc =
      if rc = r.cell ∧ inRange r.cell ∧ acceptClaim (g r.cell) r.ts then
        ⟨CellState.ACQUIRED, some r.pid, r.ts⟩
      else g rc := by
  unfold applyReq
  by_cases h1 : inRange r.cell <;> by_cases h2 : acceptClaim (g r.cell) r.ts <;>
    by_cases h3 : rc = r.cell <;> simp [h1, h2, h3]

/-- The per-cell effect of an accepted-or-rejected claim (the two branches
    of src/server.py lines 234-235, restricted to the requested cell). -/
def claimCell (old : Cell) (pid ts : Nat) : Cell :=
  if acceptClaim old ts then ⟨CellState.ACQUIRED, some pid, ts⟩ else old

theorem applyReq_out (g : Grid) (r : Req) (h : ¬ inRange r.cell = true) :
    applyReq g r = g := by
  unfold applyReq; simp [h]

theorem applyReq_ne (g : Grid) (r : Req) (rc : Nat × Nat) (h : rc ≠ r.cell) :
    applyReq g r rc = g rc := by
  rw [applyReq_apply]; simp [h]

theorem applyReq_self (g : Grid) (r : Req) (h : inRange r.cell = true) :
    applyReq g r r.cell = claimCell (g r.cell) r.pid r.ts := by
  rw [applyReq_apply]
  unfold claimCell
  by_cases ha : acceptClaim (g r.cell) r.ts <;> simp [h, ha]

theorem claimCell_comm (c : Cell) (p1 t1 p2 t2 : Nat) (hne : t1 ≠ t2) :
    claimCell (claimCell c p1 t1) p2 t2 = claimCell (claimCell c p2 t2) p1 t1 := by
  rcases c with ⟨s, o, t⟩
  cases s <;> unfold claimCell acceptClaim <;> split_ifs <;> simp_all <;> omega

/-- Two acquire requests commute provided they do not race on the same cell
    with equal timestamps (unless they are literally the same request). -/
theorem applyReq_comm (g : Grid) (x y : Req)
    (h : x.cell = y.cell → x.ts = y.ts → x = y) :
    applyReq (applyReq g x) y = applyReq (applyReq g y) x := by
  by_cases hx : inRange x.cell = true
  · by_cases hy : inRange y.cell = true
    · by_cases hcell : x.cell = y.cell
      · by_cases hts : x.ts = y.ts
        · rw [h hcell hts]
        · funext rc
          by_cases hrc : rc = x.cell
          · subst hrc
            calc applyReq (applyReq g x) y x.cell
                = applyReq (applyReq g x) y y.cell := by rw [hcell]
              _ = claimCell (applyReq g x y.cell) y.pid y.ts := applyReq_self _ y hy
              _ = claimCell (claimCell (g x.cell) x.pid x.ts) y.pid y.ts := by
                    rw [← hcell, applyReq_self g x hx]
              _ = claimCell (claimCell (g x.cell) y.pid y.ts) x.pid x.ts :=
                    claimCell_comm _ _ _ _ _ hts
              _ = claimCell (applyReq g y x.cell) x.pid x.ts := by
                    rw [hcell, applyReq_self g y hy, ← hcell]
              _ = applyReq (applyReq g y) x x.cell := (applyReq_self _ x hx).symm
          · have hrcy : rc ≠ y.cell := by rw [← hcell]; exact hrc
            rw [applyReq_ne _ y rc hrcy, applyReq_ne _ x rc hrc,
                applyReq_ne _ x rc hrc, applyReq_ne _ y rc hrcy]
      · funext rc
        by_cases hrx : rc = x.cell
        · subst hrx
          have hxny : x.cell ≠ y.cell := hcell
          rw [applyReq_ne _ y x.cell hxny, applyReq_self g x hx,
              applyReq_self _ x hx, applyReq_ne g y x.cell hxny]
        · by_cases hry : rc = y.cell
          · subst hry
            have hynx : y.cell ≠ x.cell := fun e => hcell e.symm
            rw [applyReq_self _ y hy, applyReq_ne g x y.cell hynx,
                applyReq_ne _ x y.cell hynx, applyReq_self g y hy]
          · rw [applyReq_ne _ y rc hry, applyReq_ne _ x rc hrx,
                applyReq_ne _ x rc hrx, applyReq_ne _ y rc hry]
    · rw [applyReq_out _ y hy, applyReq_out g y hy]
  · rw [applyReq_out g x hx, applyReq_out _ x hx]

/-- C1: for an in-range ACQUIRE_REQ the server accepts iff the cell is
    UNCLAIMED or the request timestamp is strictly below the stored one; an
    accepted claim writes {ACQUIRED, pid, ts}; two requests racing for an
    UNCLAIMED cell with ts_A < ts_B leave A as owner in either processing
    order, and with equal timestamps the first processed request wins. -/
theorem acquire_accept_iff_and_race (g : Grid) (r A B : Req) (cell : Nat × Nat)
    (hr : inRange r.cell = true)
    (hA : A.cell = cell) (hB : B.cell = cell) (hin : inRange cell = true)
    (hu : (g cell).state = CellState.UNCLAIMED) :
    (acceptClaim (g r.cell) r.ts →
        applyReq g r r.cell = ⟨CellState.ACQUIRED, some r.pid, r.ts⟩) ∧
    (¬ acceptClaim (g r.cell) r.ts → applyReq g r = g) ∧
    (A.ts < B.ts →
        applyReqs g [A, B] cell = ⟨CellState.ACQUIRED, some A.pid, A.ts⟩ ∧
        applyReqs g [B, A] cell = ⟨CellState.ACQUIRED, some A.pid, A.ts⟩) ∧
    (A.ts = B.ts →
        applyReqs g [A, B] cell = ⟨CellState.ACQUIRED, some A.pid, A.ts⟩ ∧
        applyReqs g [B, A] cell = ⟨CellState.ACQUIRED, some B.pid, B.ts⟩) := by
  have hinA : inRange A.cell = true := by rw [hA]; exact hin
  have hinB : inRange B.cell = true := by rw [hB]; exact hin
  have haccA : acceptClaim (g cell) A.ts := by unfold acceptClaim; exact Or.inl hu
  have haccB : acceptClaim (g cell) B.ts := by unfold acceptClaim; exact Or.inl hu
  have stepA : applyReq g A cell = ⟨CellState.ACQUIRED, some A.pid, A.ts⟩ := by
    rw [← hA, applyReq_self g A hinA, hA]
    unfold claimCell
    rw [if_pos haccA]
  have stepB : applyReq g B cell = ⟨CellState.ACQUIRED, some B.pid, B.ts⟩ := by
    rw [← hB, applyReq_self g B hinB, hB]
    unfold claimCell
    rw [if_pos haccB]
  refine ⟨?_, ?_, ?_, ?_⟩
  · intro hacc
    rw [applyReq_self g r hr]
    unfold claimCell
    rw [if_pos hacc]
  · intro hacc
    unfold applyReq
    rw [if_pos hr, if_neg hacc]
  · intro hlt
    constructor
    · show applyReq (applyReq g A) B cell = _
      rw [← hB, applyReq_self _ B hinB, hB, stepA]
      unfold claimCell acceptClaim
      rw [if_neg]
      simp only [not_or]
      exact ⟨by simp, by omega⟩
    · show applyReq (applyReq g B) A cell = _
      rw [← hA, applyReq_self _ A hinA, hA, stepB]
      unfold claimCell acceptClaim
      rw [if_pos (Or.inr hlt)]
  · intro heq
    constructor
    · show applyReq (applyReq g A) B cell = _
      rw [← hB, applyReq_self _ B hinB, hB, stepA]
      unfold claimCell acceptClaim
      rw [if_neg]
      simp only [not_or]
      exact ⟨by simp, by omega⟩
    · show applyReq (applyReq g B) A cell = _
      rw [← hA, applyReq_self _ A hinA, hA, stepB]
      unfold claimCell acceptClaim
      rw [if_neg]
      simp only [not_or]
      exact ⟨by simp, by omega⟩

theorem acquire_accept_iff_and_race_witness :
    inRange ((0, 0) : Nat × Nat) = true ∧
    (initGrid (0, 0)).state = CellState.UNCLAIMED ∧
    (acceptClaim (initGrid (0, 0)) 5 →
        applyReq initGrid ⟨(0, 0), 1, 5⟩ (0, 0) =
          ⟨CellState.ACQUIRED, some 1, 5⟩) ∧
    ((5 : Nat) < 7 →
        applyReqs initGrid [⟨(0, 0), 1, 5⟩, ⟨(0, 0), 2, 7⟩] (0, 0) =
          ⟨CellState.ACQUIRED, some 1, 5⟩ ∧
        applyReqs initGrid [⟨(0, 0), 2, 7⟩, ⟨(0, 0), 1, 5⟩] (0, 0) =
          ⟨CellState.ACQUIRED, some 1, 5⟩) := by
  have h := acquire_accept_iff_and_race initGrid ⟨(0, 0), 1, 5⟩ ⟨(0, 0), 1, 5⟩
    ⟨(0, 0), 2, 7⟩ (0, 0) (by decide) rfl rfl (by decide) (by decide)
  exact ⟨by decide, by decide, h.1, h.2.2.1⟩

/-- C2 counterexample: the two orders of the same two racing requests with
    equal timestamps but different owners produce different final grids, so
    the final grid is not a function of the multiset of requests alone. -/
theorem final_grid_not_permutation_invariant :
    ([⟨(0, 0), 1, 5⟩, ⟨(0, 0), 2, 5⟩] : List Req).Perm
      [⟨(0, 0), 2, 5⟩, ⟨(0, 0), 1, 5⟩] ∧
    (∀ r ∈ ([⟨(0, 0), 1, 5⟩, ⟨(0, 0), 2, 5⟩] : List Req), inRange r.cell = true) ∧
    applyReqs initGrid [⟨(0, 0), 1, 5⟩, ⟨(0, 0), 2, 5⟩] (0, 0) ≠
      applyReqs initGrid [⟨(0, 0), 2, 5⟩, ⟨(0, 0), 1, 5⟩] (0, 0) := by
  refine ⟨by decide, by decide, ?_⟩
  decide

/-- C2 (amended): for in-range request sequences in which any two requests
    on the same cell either differ in timestamp or are the same request, the
    final grid depends only on the multiset of requests: any permutation of
    the sequence yields the same final grid. -/
theorem final_grid_perm_invariant (g : Grid) (l₁ l₂ : List Req)
    (hperm : l₁.Perm l₂)
    (_hin : ∀ r ∈ l₁, inRange r.cell = true)
    (hdistinct : ∀ x ∈ l₁, ∀ y ∈ l₁, x.cell = y.cell → x.ts = y.ts → x = y) :
    applyReqs g l₁ = applyReqs g l₂ := by
  unfold applyReqs
  exact hperm.foldl_eq'
    (fun x hx y hy z => applyReq_comm z x y (hdistinct x hx y hy)) g

theorem final_grid_perm_invariant_witness :
    applyReqs initGrid [⟨(0, 0), 1, 5⟩, ⟨(1, 1), 2, 3⟩] =
      applyReqs initGrid [⟨(1, 1), 2, 3⟩, ⟨(0, 0), 1, 5⟩] :=
  final_grid_perm_invariant initGrid _ _ (by decide) (by decide) (by decide)

/-- C6 counterexample: after cell (0,0) is first acquired by player 1 at
    timestamp 10, a later request by player 2 with timestamp 5 changes the
    owner, refuting the immutability of the owner field. -/
theorem owner_not_immutable :
    (applyReqs initGrid [⟨(0, 0), 1, 10⟩] (0, 0)).state = CellState.ACQUIRED ∧
    (applyReqs initGrid [⟨(0, 0), 1, 10⟩] (0, 0)).owner = some 1 ∧
    (applyReqs initGrid [⟨(0, 0), 1, 10⟩, ⟨(0, 0), 2, 5⟩] (0, 0)).owner = some 2 := by
  refine ⟨by decide, by decide, ?_⟩
  decide

/-- C6 (amended): once a cell's state becomes ACQUIRED it never returns to
    UNCLAIMED under any further sequence of requests; the owner field,
    however, changes exactly when a request with strictly smaller timestamp
    is processed, which rewrites the cell to that request's owner and
    timestamp. -/
theorem acquired_monotone_and_owner_change (l : List Req) (g : Grid) (r : Req)
    (rc : Nat × Nat) (h : (g rc).state = CellState.ACQUIRED) :
    (applyReqs g l rc).state = CellState.ACQUIRED ∧
    (applyReq g r rc ≠ g rc →
        r.ts < (g rc).timestamp ∧
        applyReq g r rc = ⟨CellState.ACQUIRED, some r.pid, r.ts⟩) := by
  constructor
  · induction l generalizing g with
    | nil => exact h
    | cons a t ih =>
      show (applyReqs (applyReq g a) t rc).state = CellState.ACQUIRED
      apply ih
      rw [applyReq_apply]
      split
      · rfl
      · exact h
  · intro hchanged
    rw [applyReq_apply] at hchanged ⊢
    by_cases hc : rc = r.cell ∧ inRange r.cell = true ∧ acceptClaim (g r.cell) r.ts
    · rw [if_pos hc]
      obtain ⟨h1, _, h3⟩ := hc
      rcases h3 with h3 | h3
      · rw [← h1] at h3; rw [h] at h3; exact absurd h3 (by simp)
      · rw [← h1] at h3
        exact ⟨h3, rfl⟩
    · rw [if_neg hc] at hchanged
      exact absurd rfl hchanged

theorem acquired_monotone_and_owner_change_witness :
    ((applyReq initGrid ⟨(0, 0), 1, 10⟩) (0, 0)).state = CellState.ACQUIRED ∧
    (applyReqs (applyReq initGrid ⟨(0, 0), 1, 10⟩) [⟨(0, 0), 2, 5⟩] (0, 0)).state =
      CellState.ACQUIRED := by
  have h := acquired_monotone_and_owner_change [⟨(0, 0), 2, 5⟩]
    (applyReq initGrid ⟨(0, 0), 1, 10⟩) ⟨(0, 0), 2, 5⟩ (0, 0) (by decide)
  exact ⟨by decide, h.1⟩

/-! ## Winner computation (src/server.py lines 256-265) -/

/-- The grid's key set in creation order, src/server.py lines 79-80: the
    dict comprehension runs row-major, and Python dict iteration follows
    insertion order. -/
def rowMajorCells : List (Nat × Nat) :=
  (List.range GRID_SIZE).flatMap fun r => (List.range GRID_SIZE).map fun c => (r, c)

/-- Terminal test, src/server.py line 256:
    `all(c["state"] == "ACQUIRED" for c in grid.values())`. -/
def allAcquired (g : Grid) : Bool :=
  rowMajorCells.all fun rc => (g rc).state == CellState.ACQUIRED

/-- One step of `counts[owner] = counts.get(owner, 0) + 1` on an
    insertion-ordered dict (src/server.py line 260). -/
def bumpCount (counts : List (Option Nat × Nat)) (o : Option Nat) :
    List (Option Nat × Nat) :=
  match counts with
  | [] => [(o, 1)]
  | (k, n) :: rest => if k = o then (k, n + 1) :: rest else (k, n) :: bumpCount rest o

/-- Per-owner cell counts, src/server.py lines 257-260, keyed by the cell's
    owner field (None is a possible key, as in the source). -/
def ownerCounts (g : Grid) : List (Option Nat × Nat) :=
  rowMajorCells.foldl (fun cs rc => bumpCount cs (g rc).owner) []

/-- `counts.get` lookup on the association list. -/
def lookupCount (counts : List (Option Nat × Nat)) (k : Option Nat) : Nat :=
  match counts with
  | [] => 0
  | (k2, n) :: rest => if k2 = k then n else lookupCount rest k

/-- Python's `max(counts, key=counts.get)` (src/server.py line 261): scan
    the keys in insertion order keeping the first one whose count is
    strictly greater than the best so far; `max` of an empty dict raises,
    modelled as `none`. -/
def maxOwner (counts : List (Option Nat × Nat)) : Option (Option Nat) :=
  match counts with
  | [] => none
  | kv :: rest =>
      some (rest.foldl (fun best kv2 => if kv2.2 > best.2 then kv2 else best) kv).1

/-- The winner declared at game over, src/server.py lines 256-261. -/
def computeWinner (g : Grid) : Option (Option Nat) :=
  maxOwner (ownerCounts g)

theorem foldl_max_eq (kv : Option Nat × Nat) :
    ∀ (l : List (Option Nat × Nat)) (c0 : Option Nat × Nat),
    (kv = c0 ∨ kv ∈ l) →
    (∀ kv2, (kv2 = c0 ∨ kv2 ∈ l) → kv2 ≠ kv → kv2.2 < kv.2) →
    l.foldl (fun best kv2 => if kv2.2 > best.2 then kv2 else best) c0 = kv := by
  intro l
  induction l with
  | nil =>
    intro c0 hmem _
    rcases hmem with h | h
    · exact h.symm
    · exact absurd h (List.not_mem_nil kv)
  | cons a t ih =>
    intro c0 hmem hmax
    show t.foldl _ (if a.2 > c0.2 then a else c0) = kv
    apply ih
    · by_cases hkc : kv = c0
      · by_cases hka : kv = a
        · left; split
          · exact hka
          · exact hkc
        · have : a.2 < kv.2 :=
            hmax a (Or.inr (List.mem_cons_self a t)) (fun e => hka e.symm)
          left
          rw [if_neg (by rw [← hkc]; omega), hkc]
      · rcases hmem with h | h
        · exact absurd h hkc
        · rcases List.mem_cons.mp h with h | h
          · left
            have : c0.2 < kv.2 := hmax c0 (Or.inl rfl) (fun e => hkc e.symm)
            rw [if_pos (by rw [← h]; omega), h]
          · right; exact h
    · intro kv2 hmem2 hne2
      apply hmax kv2 _ hne2
      rcases hmem2 with h | h
      · split at h
        · right; rw [h]; exact List.mem_cons_self a t
        · left; exact h
      · right; exact List.mem_cons_of_mem a h

/-- C7 counterexample: a finished 5x5 grid in which players 1 and 2 tie at
    12 cells each; the first owner encountered in row-major order is player
    2, and the code's `max(counts, key=counts.get)` declares 2 the winner,
    not the lowest id 1. -/
theorem winner_tie_break_not_lowest_id :
    allAcquired (fun rc =>
      if rc.1 * 5 + rc.2 < 12 then ⟨CellState.ACQUIRED, some 2, 0⟩
      else if rc.1 * 5 + rc.2 < 24 then ⟨CellState.ACQUIRED, some 1, 0⟩
      else ⟨CellState.ACQUIRED, some 3, 0⟩) = true ∧
    lookupCount (ownerCounts (fun rc =>
      if rc.1 * 5 + rc.2 < 12 then ⟨CellState.ACQUIRED, some 2, 0⟩
      else if rc.1 * 5 + rc.2 < 24 then ⟨CellState.ACQUIRED, some 1, 0⟩
      else ⟨CellState.ACQUIRED, some 3, 0⟩)) (some 1) = 12 ∧
    lookupCount (ownerCounts (fun rc =>
      if rc.1 * 5 + rc.2 < 12 then ⟨CellState.ACQUIRED, some 2, 0⟩
      else if rc.1 * 5 + rc.2 < 24 then ⟨CellState.ACQUIRED, some 1, 0⟩
      else ⟨CellState.ACQUIRED, some 3, 0⟩)) (some 2) = 12 ∧
    computeWinner (fun rc =>
      if rc.1 * 5 + rc.2 < 12 then ⟨CellState.ACQUIRED, some 2, 0⟩
      else if rc.1 * 5 + rc.2 < 24 then ⟨CellState.ACQUIRED, some 1, 0⟩
      else ⟨CellState.ACQUIRED, some 3, 0⟩) = some (some 2) := by
  refine ⟨by decide, by decide, by decide, by decide⟩

/-- C7 (amended): at game over the engine computes per-owner counts in
    row-major first-appearance order and picks the first owner attaining the
    maximal count (Python max keeps the earliest maximum, so ties go to the
    owner appearing first, not to the lowest id); whenever a single owner
    strictly exceeds all others the winner is that owner, uniquely
    determined by the final grid. -/
theorem winner_unique_max (g : Grid) (kv : Option Nat × Nat)
    (hmem : kv ∈ ownerCounts g)
    (hmax : ∀ kv2 ∈ ownerCounts g, kv2 ≠ kv → kv2.2 < kv.2) :
    computeWinner g = some kv.1 := by
  have hcons : ∀ (c0 : Option Nat × Nat) (rest : List (Option Nat × Nat)),
      maxOwner (c0 :: rest) =
        some ((rest.foldl (fun best kv2 => if kv2.2 > best.2 then kv2 else best) c0).1) :=
    fun _ _ => rfl
  unfold computeWinner
  rcases hcs : ownerCounts g with _ | ⟨c0, rest⟩
  · rw [hcs] at hmem; exact absurd hmem (List.not_mem_nil kv)
  · rw [hcs] at hmem hmax
    rw [hcons c0 rest, foldl_max_eq kv rest c0 _ _]
    · rcases List.mem_cons.mp hmem with h | h
      · left; exact h
      · right; exact h
    · intro kv2 hmem2 hne2
      apply hmax kv2 _ hne2
      rcases hmem2 with h | h
      · rw [h]; exact List.mem_cons_self c0 rest
      · exact List.mem_cons_of_mem c0 h

theorem winner_unique_max_witness :
    computeWinner (fun rc =>
      if rc = (0, 0) then ⟨CellState.ACQUIRED, some 2, 1⟩
      else ⟨CellState.ACQUIRED, some 1, 1⟩) = some (some 1) :=
  winner_unique_max _ (some 1, 24) (by decide) (by decide)

/-! ## Packet codec (src/packet_helper.py, src/constants.py lines 3-18) -/

/-- src/constants.py line 3: PROTOCOL_ID = b"MLSP", as byte values. -/
def PROTOCOL_ID : List Nat := [77, 76, 83, 80]

/-- src/constants.py line 4. -/
def VERSION : Nat := 1

/-- src/constants.py line 18: struct.calcsize("!4sBBIIQHI") = 4+1+1+4+4+8+2+4. -/
def HEADER_SIZE : Nat := 28

/-- Big-endian bytes of one unsigned field of struct width w (the
    network-order B/H/I/Q codes of HEADER_FMT). -/
def packBE : Nat → Nat → List Nat
  | 0, _ => []
  | w + 1, v => packBE w (v / 256) ++ [v % 256]

/-- Big-endian read of w bytes (struct.unpack of one unsigned field),
    accumulator style; none when the buffer is short. -/
def takeBE : Nat → Nat → List Nat → Option (Nat × List Nat)
  | 0, acc, bs => some (acc, bs)
  | _ + 1, _, [] => none
  | w + 1, acc, b :: bs => takeBE w (acc * 256 + b) bs

/-- Read w raw bytes (the 4s code and the payload slice). -/
def takeBytes : Nat → List Nat → Option (List Nat × List Nat)
  | 0, bs => some ([], bs)
  | _ + 1, [] => none
  | w + 1, b :: bs => (takeBytes w bs).map fun p => (b :: p.1, p.2)

/-- One bit step of the reflected CRC-32 with polynomial 0xEDB88320. -/
def crc32Step (c : Nat) : Nat :=
  if c % 2 = 1 then (c / 2) ^^^ 0xEDB88320 else c / 2

def crc32Rounds : Nat → Nat → Nat
  | 0, c => c
  | n + 1, c => crc32Rounds n (crc32Step c)

/-- zlib.crc32 folded over one byte. -/
def crc32Update (c b : Nat) : Nat := crc32Rounds 8 (c ^^^ b)

/-- zlib.crc32 of a byte string (initial value 0): the standard reflected
    CRC-32 used at src/packet_helper.py lines 59 and 114. -/
def crc32 (bs : List Nat) : Nat :=
  (bs.foldl crc32Update 0xFFFFFFFF) ^^^ 0xFFFFFFFF

/-- struct.pack(HEADER_FMT, ...): protocol id (4s), version (B), message
    type (B), snapshot id (I), sequence (I), timestamp (Q), payload length
    (H), checksum (I), all big-endian, no padding. -/
def packHeader (proto : List Nat)
    (version msgType snapId seq ts payloadLen crc : Nat) : List Nat :=
  proto ++ (packBE 1 version ++ (packBE 1 msgType ++ (packBE 4 snapId ++
    (packBE 4 seq ++ (packBE 8 ts ++ (packBE 2 payloadLen ++ packBE 4 crc))))))

/-- build_packet, src/packet_helper.py lines 46-71: pack a header with zero
    checksum, CRC-32 it together with the payload (`& 0xFFFFFFFF` is
    `% 2^32`), repack with the checksum, append payload. `now_ms()` is the
    explicit ts argument; struct.pack's range check on each unsigned field
    is the guard (struct.error modelled as none). -/
def build_packet (msgType snapId seq ts : Nat) (payload : List Nat) :
    Option (List Nat) :=
  if msgType < 256 ∧ snapId < 4294967296 ∧ seq < 4294967296 ∧
      ts < 18446744073709551616 ∧ payload.length < 65536 then
    let temp := packHeader PROTOCOL_ID VERSION msgType snapId seq ts
      payload.length 0 ++ payload
    let crc := crc32 temp % 4294967296
    some (packHeader PROTOCOL_ID VERSION msgType snapId seq ts
      payload.length crc ++ payload)
  else none

/-- JSON values as returned by json.loads for this protocol's payloads;
    strings are byte lists. -/
inductive Json where
  | null
  | bool (b : Bool)
  | num (n : Int)
  | str (s : List Nat)
  | arr (elems : List Json)
  | obj (fields : List (List Nat × Json))

def isWsByte (b : Nat) : Bool := b == 32 || b == 9 || b == 10 || b == 13

def skipWs (bs : List Nat) : List Nat := bs.dropWhile isWsByte

def isDigitByte (b : Nat) : Bool := 48 ≤ b && b ≤ 57

/-- Longest digit run at the head of the buffer, as a number. -/
def parseNatDigits (bs : List Nat) : Option (Nat × List Nat) :=
  let ds := bs.takeWhile isDigitByte
  if ds.isEmpty then none
  else some (ds.foldl (fun a d => a * 10 + (d - 48)) 0, bs.drop ds.length)

mutual

/-- Recursive-descent JSON value parser (fuel-bounded), modelling
    json.loads at src/packet_helper.py line 120 on the JSON subset the
    protocol emits: null, booleans, integers, escape-free strings, arrays
    and objects. -/
def parseValue : Nat → List Nat → Option (Json × List Nat)
  | 0, _ => none
  | fuel + 1, bs =>
    match skipWs bs with
    | [] => none
    | 110 :: rest =>
      (match rest with
       | 117 :: 108 :: 108 :: r => some (.null, r)
       | _ => none)
    | 116 :: rest =>
      (match rest with
       | 114 :: 117 :: 101 :: r => some (.bool true, r)
       | _ => none)
    | 102 :: rest =>
      (match rest with
       | 97 :: 108 :: 115 :: 101 :: r => some (.bool false, r)
       | _ => none)
    | 34 :: rest =>
      let s := rest.takeWhile fun b => !(b == 34 || b == 92)
      (match rest.drop s.length with
       | 34 :: r => some (.str s, r)
       | _ => none)
    | 45 :: rest =>
      (match parseNatDigits rest with
       | some (n, r) => some (.num (-(n : Int)), r)
       | none => none)
    | 91 :: rest =>
      (match skipWs rest with
       | 93 :: r => some (.arr [], r)
       | _ => (parseItems fuel rest).map fun p => (.arr p.1, p.2))
    | 123 :: rest =>
      (match skipWs rest with
       | 125 :: r => some (.obj [], r)
       | _ => (parseFields fuel rest).map fun p => (.obj p.1, p.2))
    | b :: rest =>
      if isDigitByte b then
        (match parseNatDigits (b :: rest) with
         | some (n, r) => some (.num (n : Int), r)
         | none => none)
      else none

/-- Comma-separated array elements up to the closing bracket. -/
def parseItems : Nat → List Nat → Option (List Json × List Nat)
  | 0, _ => none
  | fuel + 1, bs =>
    match parseValue fuel bs with
    | none => none
    | some (v, r) =>
      match skipWs r with
      | 44 :: r2 => (parseItems fuel r2).map fun p => (v :: p.1, p.2)
      | 93 :: r2 => some ([v], r2)
      | _ => none

/-- Comma-separated object members up to the closing brace. -/
def parseFields : Nat → List Nat →
    Option (List (List Nat × Json) × List Nat)
  | 0, _ => none
  | fuel + 1, bs =>
    match skipWs bs with
    | 34 :: rest =>
      let s := rest.takeWhile fun b => !(b == 34 || b == 92)
      (match rest.drop s.length with
       | 34 :: r =>
         (match skipWs r with
          | 58 :: r2 =>
            (match parseValue fuel r2 with
             | none => none
             | some (v, r3) =>
               match skipWs r3 with
               | 44 :: r4 => (parseFields fuel r4).map fun p => ((s, v) :: p.1, p.2)
               | 125 :: r4 => some ([(s, v)], r4)
               | _ => none)
          | _ => none)
       | _ => none)
    | _ => none

end

/-- json.loads of a whole payload: one value, optionally surrounded by
    whitespace, nothing else. -/
def jsonParse (bs : List Nat) : Option Json :=
  match parseValue (bs.length + 1) bs with
  | some (v, rest) => if skipWs rest = [] then some v else none
  | none => none

/-- parse_packet, src/packet_helper.py lines 74-124: size check, header
    unpack, version check, protocol id check, payload length check, payload
    slice, CRC recomputation over the reassembled zero-checksum header, CRC
    comparison, JSON decode. Any failure is none (silent drop). -/
def parse_packet (packet : List Nat) : Option (Nat × Nat × Nat × Nat × Json) :=
  if packet.length < HEADER_SIZE then none
  else
    (takeBytes 4 packet).bind fun p0 =>
    (takeBE 1 0 p0.2).bind fun p1 =>
    (takeBE 1 0 p1.2).bind fun p2 =>
    (takeBE 4 0 p2.2).bind fun p3 =>
    (takeBE 4 0 p3.2).bind fun p4 =>
    (takeBE 8 0 p4.2).bind fun p5 =>
    (takeBE 2 0 p5.2).bind fun p6 =>
    (takeBE 4 0 p6.2).bind fun p7 =>
    if p1.1 ≠ VERSION then none
    else if p0.1 ≠ PROTOCOL_ID then none
    else if packet.length < HEADER_SIZE + p6.1 then none
    else
      (takeBytes p6.1 p7.2).bind fun pp =>
      if crc32 (packHeader p0.1 p1.1 p2.1 p3.1 p4.1 p5.1 p6.1 0 ++ pp.1) %
          4294967296 ≠ p7.1 then none
      else
        (jsonParse pp.1).map fun v => (p2.1, p3.1, p4.1, p5.1, v)

theorem packBE_length (w : Nat) : ∀ v, (packBE w v).length = w := by
  induction w with
  | zero => intro v; rfl
  | succ w ih => intro v; simp [packBE, ih]

theorem packBE_foldl (w : Nat) : ∀ v acc, v < 256 ^ w →
    (packBE w v).foldl (fun a b => a * 256 + b) acc = acc * 256 ^ w + v := by
  induction w with
  | zero =>
    intro v acc h
    have hv : v = 0 := by simpa using h
    subst hv
    simp [packBE]
  | succ w ih =>
    intro v acc h
    have hdiv : v / 256 < 256 ^ w := by
      rw [Nat.div_lt_iff_lt_mul (by norm_num)]
      calc v < 256 ^ (w + 1) := h
        _ = 256 ^ w * 256 := by rw [pow_succ]
    rw [packBE, List.foldl_append, ih (v / 256) acc hdiv]
    show (acc * 256 ^ w + v / 256) * 256 + v % 256 = acc * 256 ^ (w + 1) + v
    rw [Nat.add_mul, pow_succ, ← Nat.mul_assoc]
    omega

theorem takeBE_append (bs : List Nat) : ∀ acc rest,
    takeBE bs.length acc (bs ++ rest) =
      some (bs.foldl (fun a b => a * 256 + b) acc, rest) := by
  induction bs with
  | nil => intro acc rest; rfl
  | cons b t ih =>
    intro acc rest
    show takeBE (t.length + 1) acc (b :: (t ++ rest)) = _
    rw [takeBE]
    exact ih (acc * 256 + b) rest

theorem takeBE_packBE (w v : Nat) (rest : List Nat) (h : v < 256 ^ w) :
    takeBE w 0 (packBE w v ++ rest) = some (v, rest) := by
  have h1 := takeBE_append (packBE w v) 0 rest
  rw [packBE_length] at h1
  rw [h1, packBE_foldl w v 0 h]
  simp

theorem takeBytes_append (bs : List Nat) : ∀ rest,
    takeBytes bs.length (bs ++ rest) = some (bs, rest) := by
  induction bs with
  | nil => intro rest; rfl
  | cons b t ih =>
    intro rest
    show takeBytes (t.length + 1) (b :: (t ++ rest)) = _
    rw [takeBytes, ih rest]
    rfl

theorem packHeader_length (version msgType snapId seq ts plen crc : Nat) :
    (packHeader PROTOCOL_ID version msgType snapId seq ts plen crc).length = 28 := by
  simp [packHeader, PROTOCOL_ID, packBE_length]

/-- C3: a packet produced by build_packet with in-range header fields and a
    payload that json.loads accepts is decoded by parse_packet back to the
    same message type, snapshot id, sequence number, timestamp and payload
    value. -/
theorem build_parse_roundtrip (msgType snapId seq ts : Nat)
    (payload pkt : List Nat) (v : Json)
    (hbuild : build_packet msgType snapId seq ts payload = some pkt)
    (hjson : jsonParse payload = some v) :
    parse_packet pkt = some (msgType, snapId, seq, ts, v) := by
  unfold build_packet at hbuild
  split_ifs at hbuild with hcond
  obtain ⟨hmt, hsnap, hseq, hts, hlen⟩ := hcond
  have hpkt : pkt = packHeader PROTOCOL_ID VERSION msgType snapId seq ts
      payload.length
      (crc32 (packHeader PROTOCOL_ID VERSION msgType snapId seq ts
        payload.length 0 ++ payload) % 4294967296) ++ payload := by
    exact (Option.some.injEq _ _ ▸ hbuild).symm
  have hplen : pkt.length = 28 + payload.length := by
    rw [hpkt, List.length_append, packHeader_length]
  have hproto : ∀ rs : List Nat, takeBytes 4 (PROTOCOL_ID ++ rs) =
      some (PROTOCOL_ID, rs) := fun rs => takeBytes_append PROTOCOL_ID rs
  have hver : ∀ rs : List Nat, takeBE 1 0 (packBE 1 VERSION ++ rs) =
      some (VERSION, rs) := fun rs => takeBE_packBE 1 VERSION rs (by norm_num [VERSION])
  have hmsg : ∀ rs : List Nat, takeBE 1 0 (packBE 1 msgType ++ rs) =
      some (msgType, rs) := fun rs => takeBE_packBE 1 msgType rs (by
        rw [pow_one]; exact hmt)
  have hsnap' : ∀ rs : List Nat, takeBE 4 0 (packBE 4 snapId ++ rs) =
      some (snapId, rs) := fun rs => takeBE_packBE 4 snapId rs (by
        norm_num; exact hsnap)
  have hseq' : ∀ rs : List Nat, takeBE 4 0 (packBE 4 seq ++ rs) =
      some (seq, rs) := fun rs => takeBE_packBE 4 seq rs (by
        norm_num; exact hseq)
  have hts' : ∀ rs : List Nat, takeBE 8 0 (packBE 8 ts ++ rs) =
      some (ts, rs) := fun rs => takeBE_packBE 8 ts rs (by
        norm_num; exact hts)
  have hlen' : ∀ rs : List Nat, takeBE 2 0 (packBE 2 payload.length ++ rs) =
      some (payload.length, rs) := fun rs => takeBE_packBE 2 payload.length rs (by
        norm_num; exact hlen)
  have hcrc' : ∀ c rs, c < 4294967296 → takeBE 4 0 (packBE 4 c ++ rs) =
      some (c, rs) := fun c rs hc => takeBE_packBE 4 c rs (by norm_num; exact hc)
  have hcrclt : crc32 (packHeader PROTOCOL_ID VERSION msgType snapId seq ts
      payload.length 0 ++ payload) % 4294967296 < 4294967296 :=
    Nat.mod_lt _ (by norm_num)
  have hpay : takeBytes payload.length payload = some (payload, []) := by
    have := takeBytes_append payload []
    rwa [List.append_nil] at this
  have hmodlt : ∀ x : Nat, x % 4294967296 < 4294967296 :=
    fun x => Nat.mod_lt _ (by norm_num)
  rw [hpkt]
  unfold parse_packet
  rw [if_neg (by rw [← hpkt, hplen]; unfold HEADER_SIZE; omega)]
  simp only [packHeader, List.append_assoc, hproto, hver, hmsg, hsnap', hseq',
    hts', hlen', hcrc', hmodlt, Option.some_bind]
  have hlistlen : ∀ c : Nat,
      (PROTOCOL_ID ++ (packBE 1 VERSION ++ (packBE 1 msgType ++ (packBE 4 snapId ++
        (packBE 4 seq ++ (packBE 8 ts ++ (packBE 2 payload.length ++
          (packBE 4 c ++ payload)))))))).length = 28 + payload.length := by
    intro c
    simp [PROTOCOL_ID, packBE_length, List.length_append]
    omega
  rw [if_neg (fun h => h rfl), if_neg (fun h => h rfl),
    if_neg (by rw [hlistlen]; unfold HEADER_SIZE; omega), hpay]
  simp only [Option.some_bind]
  rw [if_neg (fun h => h rfl), hjson]
  rfl

theorem build_parse_roundtrip_witness :
    (build_packet 3 7 9 1000 [110, 117, 108, 108]).bind parse_packet =
      some (3, 7, 9, 1000, Json.null) := by
  rcases hb : build_packet 3 7 9 1000 [110, 117, 108, 108] with _ | pkt
  · rw [build_packet, if_pos (by decide)] at hb
    exact Option.noConfusion hb
  · simp only [Option.some_bind]
    exact build_parse_roundtrip 3 7 9 1000 _ pkt Json.null hb (by rfl)

/-! ## Snapshot engine: sizes, chunking, delta broadcast
    (src/server.py lines 92-106, 112-154, 171-193) -/

/-- UTF-8 bytes of an ASCII string literal. -/
def strBytes (s : String) : List Nat := s.data.map Char.toNat

/-- Decimal digits of a natural number, as bytes. -/
def natDigits (n : Nat) : List Nat := (Nat.toDigits 10 n).map Char.toNat

/-- A JSON string token: quote, contents, quote. -/
def jsonStrBytes (s : String) : List Nat := [34] ++ strBytes s ++ [34]

/-- orjson.dumps of one grid-cell dict in source key order (state, owner,
    timestamp); owners travel in their decimal-string form (str(next_id)),
    an unclaimed owner is null. Byte 123 / 125 are the braces, 44 the
    comma, 58 the colon, 34 the quote. -/
def cellBytes (c : Cell) : List Nat :=
  [123] ++ jsonStrBytes "state" ++ [58] ++
    jsonStrBytes (match c.state with
      | CellState.UNCLAIMED => "UNCLAIMED"
      | CellState.ACQUIRED => "ACQUIRED") ++
  [44] ++ jsonStrBytes "owner" ++ [58] ++
    (match c.owner with
     | none => strBytes "null"
     | some p => [34] ++ natDigits p ++ [34]) ++
  [44] ++ jsonStrBytes "timestamp" ++ [58] ++ natDigits c.timestamp ++ [125]

/-- The "r,c" key of a grid entry. -/
def keyBytes (rc : Nat × Nat) : List Nat :=
  [34] ++ natDigits rc.1 ++ [44] ++ natDigits rc.2 ++ [34]

/-- orjson.dumps of the grid (sub)dict. -/
def gridObjBytes (items : List ((Nat × Nat) × Cell)) : List Nat :=
  [123] ++
    List.intercalate [44]
      (items.map fun kv => keyBytes kv.1 ++ [58] ++ cellBytes kv.2) ++
  [125]

def boolBytes (b : Bool) : List Nat := strBytes (if b then "true" else "false")

/-- orjson.dumps of the snapshot payload dict built at src/server.py lines
    124-130 and 145-151, keys in insertion order: grid, timestamp, is_full,
    total_chunks, chunk_index. -/
def snapshotPayloadBytes (items : List ((Nat × Nat) × Cell)) (ts : Nat)
    (isFull : Bool) (totalChunks chunkIndex : Nat) : List Nat :=
  [123] ++ jsonStrBytes "grid" ++ [58] ++ gridObjBytes items ++
  [44] ++ jsonStrBytes "timestamp" ++ [58] ++ natDigits ts ++
  [44] ++ jsonStrBytes "is_full" ++ [58] ++ boolBytes isFull ++
  [44] ++ jsonStrBytes "total_chunks" ++ [58] ++ natDigits totalChunks ++
  [44] ++ jsonStrBytes "chunk_index" ++ [58] ++ natDigits chunkIndex ++ [125]

/-- Modelled from the spec: MAX_PACKET_BYTES is imported by src/server.py
    line 24 but missing from src/constants.py; the spec sets the maximum
    packet size option's default to 1200 bytes. -/
def MAX_PACKET_BYTES : Nat := 1200

/-- send_packet, src/server.py lines 92-106: build the packet, bump seq_num,
    transmit via sock.sendto UNCONDITIONALLY, and only afterwards compare
    the length against MAX_PACKET_BYTES, printing a warning when exceeded.
    Result: the transmitted packet together with the warning flag (none if
    struct.pack failed). -/
def send_packet (msgType snapId seqNum ts : Nat) (payload : List Nat) :
    Option (List Nat × Bool) :=
  (build_packet msgType snapId seqNum ts payload).map fun packet =>
    (packet, decide (packet.length > MAX_PACKET_BYTES))

set_option maxRecDepth 8192 in
/-- C8 counterexample: a 1173-byte payload yields a 1201-byte packet,
    above the 1200-byte maximum, and send_packet still transmits it (the
    warning flag is merely set): the oversize send is not aborted. -/
theorem oversize_packet_still_sent :
    (send_packet 3 0 0 0 (List.replicate 1173 48)).map
        (fun r => (r.1.length, r.2)) = some (1201, true) ∧
    1201 > MAX_PACKET_BYTES := by
  constructor
  · unfold send_packet
    rw [build_packet, if_pos (by
      refine ⟨by norm_num, by norm_num, by norm_num, by norm_num, ?_⟩
      rw [List.length_replicate]
      norm_num)]
    have hlen : ∀ c : Nat,
        (packHeader PROTOCOL_ID VERSION 3 0 0 0
          (List.replicate 1173 48).length c ++ List.replicate 1173 48).length
          = 1201 := by
      intro c
      rw [List.length_append, packHeader_length, List.length_replicate]
    simp only [Option.map_some, hlen]
    rfl
  · decide

/-- Trial packet size of a prospective chunk: header plus the encoding of
    the test payload built with total_chunks = 1 and chunk_index = 0
    (src/server.py lines 123-132). -/
def trialSize (items : List ((Nat × Nat) × Cell)) (ts : Nat) (isFull : Bool) : Nat :=
  HEADER_SIZE + (snapshotPayloadBytes items ts isFull 1 0).length

theorem half_split_measure (n : Nat) (h : 1 < n) :
    2 * ((n - n / 2) * (n - n / 2)) + 1 + (2 * (n / 2 * (n / 2)) + 1) <
      2 * (n * n) + 1 := by
  have ha : 1 ≤ n / 2 := by omega
  have hb : 1 ≤ n - n / 2 := by omega
  have hn : n = n / 2 + (n - n / 2) := by omega
  have key : n * n =
      n / 2 * (n / 2) + 2 * (n / 2 * (n - n / 2)) + (n - n / 2) * (n - n / 2) := by
    conv_lhs => rw [hn]
    ring
  have hab : 1 * 1 ≤ n / 2 * (n - n / 2) := Nat.mul_le_mul ha hb
  linarith

/-- The splitting loop of send_chunked_snapshot (src/server.py lines
    113-140): a stack of item lists is processed; an empty list is skipped;
    a list whose trial encoding exceeds MAX_PACKET_BYTES and that still has
    more than one item is halved, both halves pushed back (Python
    list.pop/append works at the tail, modelled here at the head, so the
    second half is on top); otherwise the list is appended to parts. -/
def chunkParts (ts : Nat) (isFull : Bool) :
    List (List ((Nat × Nat) × Cell)) → List (List ((Nat × Nat) × Cell)) →
    List (List ((Nat × Nat) × Cell))
  | [], parts => parts
  | items :: pending, parts =>
    if items.isEmpty then chunkParts ts isFull pending parts
    else if trialSize items ts isFull > MAX_PACKET_BYTES ∧ items.length > 1 then
      chunkParts ts isFull
        (items.drop (items.length / 2) :: (items.take (items.length / 2) :: pending))
        parts
    else chunkParts ts isFull pending (parts ++ [items])
  termination_by pending _ => (pending.map fun l => 2 * (l.length * l.length) + 1).sum
  decreasing_by
  · simp only [List.map_cons, List.sum_cons]
    omega
  · simp only [List.map_cons, List.sum_cons, List.length_drop, List.length_take]
    have hlen : 1 < items.length := by omega
    have hmin : min (items.length / 2) items.length = items.length / 2 :=
      Nat.min_eq_left (Nat.div_le_self _ _)
    rw [hmin]
    have := half_split_measure items.length hlen
    omega
  · simp only [List.map_cons, List.sum_cons]
    omega

theorem chunkParts_size_ok (ts : Nat) (isFull : Bool)
    (pending parts : List (List ((Nat × Nat) × Cell)))
    (hparts : ∀ l ∈ parts, trialSize l ts isFull ≤ MAX_PACKET_BYTES ∨ l.length ≤ 1) :
    ∀ l ∈ chunkParts ts isFull pending parts,
      trialSize l ts isFull ≤ MAX_PACKET_BYTES ∨ l.length ≤ 1 := by
  induction pending, parts using chunkParts.induct ts isFull with
  | case1 parts =>
    rw [chunkParts]
    exact hparts
  | case2 items pending parts hempty ih =>
    rw [chunkParts, if_pos hempty]
    exact ih hparts
  | case3 items pending parts hempty hbig ih =>
    rw [chunkParts, if_neg hempty, if_pos hbig]
    exact ih hparts
  | case4 items pending parts hempty hbig ih =>
    rw [chunkParts, if_neg hempty, if_neg hbig]
    apply ih
    intro l hl
    rcases List.mem_append.mp hl with h | h
    · exact hparts l h
    · have : l = items := List.mem_singleton.mp h
      subst this
      rcases Decidable.not_and_iff_or_not.mp hbig with h | h
      · left; omega
      · right; omega

theorem chunkParts_ne_nil (ts : Nat) (isFull : Bool)
    (pending parts : List (List ((Nat × Nat) × Cell)))
    (h : (∃ l ∈ pending, l ≠ []) ∨ parts ≠ []) :
    chunkParts ts isFull pending parts ≠ [] := by
  induction pending, parts using chunkParts.induct ts isFull with
  | case1 parts =>
    rw [chunkParts]
    rcases h with ⟨l, hl, _⟩ | h
    · exact absurd hl (List.not_mem_nil l)
    · exact h
  | case2 items pending parts hempty ih =>
    rw [chunkParts, if_pos hempty]
    apply ih
    rcases h with ⟨l, hl, hlne⟩ | h
    · rcases List.mem_cons.mp hl with he | hm
      · subst he
        exact absurd (List.isEmpty_iff.mp hempty) hlne
      · exact Or.inl ⟨l, hm, hlne⟩
    · exact Or.inr h
  | case3 items pending parts hempty hbig ih =>
    rw [chunkParts, if_neg hempty, if_pos hbig]
    apply ih
    left
    refine ⟨items.drop (items.length / 2), List.mem_cons_self _ _, ?_⟩
    have : (items.drop (items.length / 2)).length = items.length - items.length / 2 :=
      List.length_drop _ _
    intro hnil
    rw [hnil] at this
    simp at this
    omega
  | case4 items pending parts hempty hbig ih =>
    rw [chunkParts, if_neg hempty, if_neg hbig]
    apply ih
    right
    simp

/-- One SNAPSHOT chunk as emitted by the loop at src/server.py lines
    144-154: the real payload fields plus the header snapshot id it is sent
    with. -/
structure ChunkMsg where
  snapId : Nat
  items : List ((Nat × Nat) × Cell)
  ts : Nat
  isFull : Bool
  totalChunks : Nat
  chunkIndex : Nat
deriving DecidableEq, Repr

/-- send_chunked_snapshot, src/server.py lines 112-154: split the cells
    into parts, then emit one SNAPSHOT per part carrying the shared
    snapshot id, the real total_chunks and the part's chunk_index. -/
def send_chunked_snapshot (snapId : Nat) (items : List ((Nat × Nat) × Cell))
    (ts : Nat) (isFull : Bool) : List ChunkMsg :=
  let parts := chunkParts ts isFull [items] []
  parts.enum.map fun p => ⟨snapId, p.2, ts, isFull, parts.length, p.1⟩

/-- C8 (amended): send_packet transmits every packet it builds and merely
    flags packets above MAX_PACKET_BYTES; the chunking procedure guarantees
    only that each emitted chunk's TRIAL encoding (total_chunks = 1,
    chunk_index = 0) fits under the maximum or that the chunk has a single
    cell that cannot be split further; the real encoding with the actual
    total_chunks and chunk_index fields is not re-checked. -/
theorem send_packet_transmits_and_chunks_fit_trial
    (mt snap seq ts : Nat) (payload pkt : List Nat) (w : Bool)
    (hsent : send_packet mt snap seq ts payload = some (pkt, w))
    (snapId : Nat) (items : List ((Nat × Nat) × Cell)) (ts2 : Nat)
    (isFull : Bool) (m : ChunkMsg)
    (hm : m ∈ send_chunked_snapshot snapId items ts2 isFull) :
    build_packet mt snap seq ts payload = some pkt ∧
    (w = true ↔ pkt.length > MAX_PACKET_BYTES) ∧
    (trialSize m.items ts2 isFull ≤ MAX_PACKET_BYTES ∨ m.items.length ≤ 1) := by
  unfold send_packet at hsent
  rcases hb : build_packet mt snap seq ts payload with _ | p
  · rw [hb] at hsent
    exact Option.noConfusion hsent
  · rw [hb] at hsent
    simp only [Option.map_some', Option.some.injEq, Prod.mk.injEq] at hsent
    refine ⟨congrArg some hsent.1, ?_, ?_⟩
    · rw [← hsent.2, ← hsent.1]
      exact decide_eq_true_iff
    unfold send_chunked_snapshot at hm
    simp only [List.mem_map] at hm
    obtain ⟨q, hq, hqm⟩ := hm
    have hitems : m.items = q.2 := by rw [← hqm]
    rw [hitems]
    have hq2 : q.2 ∈ chunkParts ts2 isFull [items] [] := by
      have h1 : q.2 ∈ (chunkParts ts2 isFull [items] []).enum.map Prod.snd :=
        List.mem_map_of_mem Prod.snd hq
      rwa [List.enum_map_snd] at h1
    exact chunkParts_size_ok ts2 isFull [items] [] (by intro l hl; cases hl) q.2 hq2

theorem send_packet_transmits_and_chunks_fit_trial_witness :
    trialSize [((0, 0), ⟨CellState.ACQUIRED, some 1, 5⟩)] 0 false ≤
      MAX_PACKET_BYTES ∨
    ([((0, 0), (⟨CellState.ACQUIRED, some 1, 5⟩ : Cell))]).length ≤ 1 := by
  rcases hb : send_packet 1 0 0 0 [] with _ | r
  · rw [send_packet, build_packet, if_pos (by decide)] at hb
    exact Option.noConfusion hb
  · have hcp : chunkParts 0 false
        [[((0, 0), (⟨CellState.ACQUIRED, some 1, 5⟩ : Cell))]] [] =
        [[((0, 0), ⟨CellState.ACQUIRED, some 1, 5⟩)]] := by
      rw [chunkParts, if_neg (by decide),
        if_neg (fun hc => absurd hc.2 (by decide)), chunkParts]
      rfl
    have h := send_packet_transmits_and_chunks_fit_trial 1 0 0 0 [] r.1 r.2
      (by rw [hb]) 5 [((0, 0), ⟨CellState.ACQUIRED, some 1, 5⟩)] 0 false
      ⟨5, [((0, 0), ⟨CellState.ACQUIRED, some 1, 5⟩)], 0, false, 1, 0⟩ (by
        simp only [send_chunked_snapshot, hcp]
        decide)
    exact h.2.2

/-- Delta computation, src/server.py lines 174-178: the cells whose current
    value differs from the last_grid baseline, in row-major order. -/
def computeDelta (g lg : Grid) : List ((Nat × Nat) × Cell) :=
  (rowMajorCells.filter fun rc => g rc != lg rc).map fun rc => (rc, g rc)

/-- The server state send_delta_snapshot reads (grid, last_grid,
    snapshot_id, clients), src/server.py lines 79-89. -/
structure BroadcastState where
  grid : Grid
  last_grid : Grid
  snapshot_id : Nat
  clients : List Nat

/-- send_delta_snapshot, src/server.py lines 171-193: compute the delta; if
    it is empty, advance snapshot_id and send NOTHING; otherwise send the
    chunked snapshot carrying the pre-increment snapshot_id to every client
    in the broadcast set, then advance snapshot_id. Returns the new
    snapshot_id and the (client, chunk) sends. -/
def send_delta_snapshot (st : BroadcastState) (now : Nat) :
    Nat × List (Nat × ChunkMsg) :=
  let delta := computeDelta st.grid st.last_grid
  if delta.isEmpty then (st.snapshot_id + 1, [])
  else
    (st.snapshot_id + 1,
     st.clients.flatMap fun cli =>
       (send_chunked_snapshot st.snapshot_id delta now false).map fun m => (cli, m))

/-- C4 counterexample: with one active client and an empty delta
    (grid = last_grid), the tick advances snapshot_id from 5 to 6 but
    transmits no SNAPSHOT at all, so ids emitted on the wire skip 5. -/
theorem empty_delta_transmits_nothing :
    (send_delta_snapshot ⟨initGrid, initGrid, 5, [0]⟩ 0).1 = 6 ∧
    (send_delta_snapshot ⟨initGrid, initGrid, 5, [0]⟩ 0).2 = [] ∧
    (⟨initGrid, initGrid, 5, [0]⟩ : BroadcastState).clients ≠ [] := by
  refine ⟨by decide, by decide, by decide⟩

/-- C4 (amended): every broadcast tick advances snapshot_id by exactly 1;
    when the delta is non-empty every client in the broadcast set is sent at
    least one SNAPSHOT chunk carrying the pre-increment snapshot_id; when
    the delta is empty nothing is transmitted, so the emitted snapshot ids
    are strictly increasing but may skip values. -/
theorem delta_tick_increments_and_sends (st : BroadcastState) (now : Nat) :
    (send_delta_snapshot st now).1 = st.snapshot_id + 1 ∧
    (computeDelta st.grid st.last_grid = [] →
      (send_delta_snapshot st now).2 = []) ∧
    (computeDelta st.grid st.last_grid ≠ [] → ∀ cli ∈ st.clients,
      ∃ m, (cli, m) ∈ (send_delta_snapshot st now).2 ∧
        m.snapId = st.snapshot_id) := by
  refine ⟨?_, ?_, ?_⟩
  · simp only [send_delta_snapshot]
    split <;> rfl
  · intro h
    simp only [send_delta_snapshot]
    rw [if_pos (by rw [h]; rfl)]
  · intro h cli hcli
    have hchunks : send_chunked_snapshot st.snapshot_id
        (computeDelta st.grid st.last_grid) now false ≠ [] := by
      unfold send_chunked_snapshot
      intro hnil
      have hparts := chunkParts_ne_nil now false
        [computeDelta st.grid st.last_grid] []
        (Or.inl ⟨_, List.mem_cons_self _ _, h⟩)
      apply hparts
      have h0 := congrArg List.length hnil
      simp only [List.length_map, List.enum_length, List.length_nil] at h0
      exact List.length_eq_zero.mp h0
    rcases hch : send_chunked_snapshot st.snapshot_id
        (computeDelta st.grid st.last_grid) now false with _ | ⟨m0, rest⟩
    · exact absurd hch hchunks
    · have hmem0 : m0 ∈ send_chunked_snapshot st.snapshot_id
          (computeDelta st.grid st.last_grid) now false := by
        rw [hch]
        exact List.mem_cons_self _ _
      have hsnap0 : m0.snapId = st.snapshot_id := by
        unfold send_chunked_snapshot at hmem0
        simp only [List.mem_map] at hmem0
        obtain ⟨q, _, hq⟩ := hmem0
        rw [← hq]
      refine ⟨m0, ?_, hsnap0⟩
      simp only [send_delta_snapshot]
      rw [if_neg (fun he => h (List.isEmpty_iff.mp he))]
      apply List.mem_flatMap.mpr
      exact ⟨cli, hcli, List.mem_map_of_mem _ hmem0⟩

theorem delta_tick_increments_and_sends_witness :
    computeDelta (applyReq initGrid ⟨(0, 0), 1, 5⟩) initGrid ≠ [] ∧
    (∃ m, (42, m) ∈ (send_delta_snapshot
        ⟨applyReq initGrid ⟨(0, 0), 1, 5⟩, initGrid, 0, [42]⟩ 0).2 ∧
      m.snapId = 0) :=
  ⟨by decide,
    (delta_tick_increments_and_sends
      ⟨applyReq initGrid ⟨(0, 0), 1, 5⟩, initGrid, 0, [42]⟩ 0).2.2
      (by decide) 42 (by decide)⟩

/-! ## Session table, acks and the reliable event channel
    (src/server.py lines 75-89, 225-250, 267-315) -/

/-- Python dict assignment `m[k] = v` on an insertion-ordered dict: replace
    in place if the key exists, else append. -/
def setKey {α β : Type} [DecidableEq α] :
    List (α × β) → α → β → List (α × β)
  | [], k, v => [(k, v)]
  | (k2, v2) :: rest, k, v =>
    if k2 = k then (k2, v) :: rest else (k2, v2) :: setKey rest k v

/-- Python dict lookup `m.get(k)`. -/
def lookupKey {α β : Type} [DecidableEq α] :
    List (α × β) → α → Option β
  | [], _ => none
  | (k2, v2) :: rest, k => if k2 = k then some v2 else lookupKey rest k

/-- Python `del m[k]`: drop the key, preserving the order of the rest. -/
def removeKey {α β : Type} [DecidableEq α] :
    List (α × β) → α → List (α × β)
  | [], _ => []
  | (k2, v2) :: rest, k =>
    if k2 = k then rest else (k2, v2) :: removeKey rest k

theorem lookupKey_setKey_self {α β : Type} [DecidableEq α]
    (m : List (α × β)) (k : α) (v : β) :
    lookupKey (setKey m k v) k = some v := by
  induction m with
  | nil => simp [setKey, lookupKey]
  | cons kv rest ih =>
    rcases kv with ⟨k2, v2⟩
    by_cases h : k2 = k <;> simp [setKey, lookupKey, h, ih]

theorem lookupKey_setKey_ne {α β : Type} [DecidableEq α]
    (m : List (α × β)) (k k2 : α) (v : β) (h : k2 ≠ k) :
    lookupKey (setKey m k2 v) k = lookupKey m k := by
  induction m with
  | nil => simp [setKey, lookupKey, h]
  | cons kv rest ih =>
    rcases kv with ⟨k3, v3⟩
    by_cases h3 : k3 = k2
    · subst h3
      simp [setKey, lookupKey, h]
    · have h5 : ¬ k = k2 := fun e => h e.symm
      by_cases h4 : k3 = k <;> simp [setKey, lookupKey, h3, h4, h5, ih]

/-- Server session state touched by the receiver's INIT / ASSIGN_ID_ACK /
    SNAPSHOT_ACK branches: pending_assign maps an endpoint to its assigned
    player id and last-resend time; clients is the broadcast set;
    client_last_acked the cumulative-ack table; next_id the id allocator.
    Endpoints are abstract, player ids carry the integer underlying the
    source's decimal string str(next_id). -/
structure SessionState where
  pending_assign : List (Nat × Nat × Nat)
  clients : List Nat
  client_last_acked : List (Nat × Int)
  next_id : Nat
deriving DecidableEq, Repr

/-- INIT branch of the receiver, src/server.py lines 278-288: a known
    pending endpoint gets its previously assigned id re-sent; an unknown
    endpoint gets pending_assign[addr] = [str(next_id), 0] and next_id is
    bumped. In both cases ASSIGN_ID with the returned pid (and a full
    snapshot) is sent to the endpoint. -/
def handle_init (s : SessionState) (addr : Nat) : SessionState × Nat :=
  match lookupKey s.pending_assign addr with
  | some pv => (s, pv.1)
  | none =>
    ({ s with
        pending_assign := setKey s.pending_assign addr (s.next_id, 0),
        next_id := s.next_id + 1 },
      s.next_id)

/-- ASSIGN_ID_ACK branch of the receiver, src/server.py lines 297-304:
    a pending endpoint is activated: added to the clients set, last_acked
    initialised to -1, and removed from pending_assign. -/
def handle_assign_id_ack (s : SessionState) (addr : Nat) : SessionState :=
  match lookupKey s.pending_assign addr with
  | some _ =>
    { s with
        clients := if addr ∈ s.clients then s.clients else s.clients ++ [addr],
        client_last_acked := setKey s.client_last_acked addr (-1),
        pending_assign := removeKey s.pending_assign addr }
  | none => s

/-- SNAPSHOT_ACK branch of the receiver, src/server.py lines 313-315:
    client_last_acked[addr] = data["snapshot_id"], a plain assignment. -/
def handle_snapshot_ack (s : SessionState) (addr : Nat) (k : Int) :
    SessionState :=
  { s with client_last_acked := setKey s.client_last_acked addr k }

/-- C5 counterexample: after SNAPSHOT_ACK(5) then SNAPSHOT_ACK(3) from the
    same endpoint, last_acked is 3, not max(5, 3) = 5: the value decreased. -/
theorem snapshot_ack_can_decrease :
    lookupKey (handle_snapshot_ack
        (handle_snapshot_ack ⟨[], [0], [(0, -1)], 1⟩ 0 5) 0 3).client_last_acked
      0 = some 3 ∧
    (3 : Int) ≠ max 5 3 := by
  refine ⟨by decide, by decide⟩

/-- C5 (amended): on SNAPSHOT_ACK(k) the server overwrites the session's
    last_acked with k unconditionally, whatever the previous value was;
    an older ack arriving late therefore lowers last_acked. -/
theorem snapshot_ack_overwrites (s : SessionState) (addr : Nat) (k : Int) :
    lookupKey (handle_snapshot_ack s addr k).client_last_acked addr = some k :=
  lookupKey_setKey_self s.client_last_acked addr k

/-- C10 counterexample: endpoint 7 completes the handshake (INIT with
    next_id = 1 assigns pid 1, then ASSIGN_ID_ACK activates it, deleting it
    from pending_assign); a further INIT from the now-ACTIVE endpoint
    allocates the fresh id 2 instead of re-sending 1. -/
theorem reinit_after_active_allocates_new_id :
    (handle_init ⟨[], [], [], 1⟩ 7).2 = 1 ∧
    7 ∈ (handle_assign_id_ack (handle_init ⟨[], [], [], 1⟩ 7).1 7).clients ∧
    (handle_init (handle_assign_id_ack (handle_init ⟨[], [], [], 1⟩ 7).1 7) 7).2
      = 2 ∧
    (handle_init (handle_assign_id_ack
        (handle_init ⟨[], [], [], 1⟩ 7).1 7) 7).1.next_id = 3 := by
  refine ⟨by decide, by decide, by decide, by decide⟩

/-- C10 (amended): an INIT from an endpoint still in pending_assign
    re-sends the same previously assigned id without touching the state; an
    INIT from any endpoint absent from pending_assign — including one that
    completed the handshake and became ACTIVE, since activation deletes it
    from pending_assign — allocates the fresh id next_id and bumps the
    allocator. -/
theorem init_reuses_id_only_while_pending (s : SessionState) (addr : Nat) :
    (∀ pv, lookupKey s.pending_assign addr = some pv →
      (handle_init s addr).2 = pv.1 ∧ (handle_init s addr).1 = s) ∧
    (lookupKey s.pending_assign addr = none →
      (handle_init s addr).2 = s.next_id ∧
      (handle_init s addr).1.next_id = s.next_id + 1 ∧
      lookupKey (handle_init s addr).1.pending_assign addr =
        some (s.next_id, 0)) := by
  constructor
  · intro pv hpv
    unfold handle_init
    rw [hpv]
    exact ⟨rfl, rfl⟩
  · intro hnone
    unfold handle_init
    rw [hnone]
    exact ⟨rfl, rfl, lookupKey_setKey_self _ _ _⟩

theorem init_reuses_id_only_while_pending_witness :
    ((handle_init ⟨[(7, 4, 0)], [], [], 9⟩ 7).2 = 4 ∧
      (handle_init ⟨[(7, 4, 0)], [], [], 9⟩ 7).1 = ⟨[(7, 4, 0)], [], [], 9⟩) ∧
    ((handle_init ⟨[(7, 4, 0)], [], [], 9⟩ 8).2 = 9 ∧
      (handle_init ⟨[(7, 4, 0)], [], [], 9⟩ 8).1.next_id = 10 ∧
      lookupKey (handle_init ⟨[(7, 4, 0)], [], [], 9⟩ 8).1.pending_assign 8 =
        some (9, 0)) :=
  ⟨(init_reuses_id_only_while_pending ⟨[(7, 4, 0)], [], [], 9⟩ 7).1 (4, 0)
      (by decide),
    (init_reuses_id_only_while_pending ⟨[(7, 4, 0)], [], [], 9⟩ 8).2
      (by decide)⟩

/-- Payload of a reliable ACQUIRE_EVENT, src/server.py lines 237-241. -/
structure AcquireEventPayload where
  cell : Nat × Nat
  owner : Nat
  event_id : Nat
deriving DecidableEq, Repr

/-- A pending reliable-event entry, src/server.py lines 243-246: one ack
    bit per currently known client, plus the payload to retransmit. -/
structure EventEntry where
  acks : List (Nat × Bool)
  payload : AcquireEventPayload
deriving DecidableEq, Repr

/-- The server state handle_acquire_request touches: the grid, the pending
    reliable-event table keyed by event_id, the client set. -/
structure ServerState where
  grid : Grid
  pending_acquire_events : List (Nat × EventEntry)
  clients : List Nat

/-- handle_acquire_request, src/server.py lines 225-265, with now_ms() as
    the explicit `now` argument: on accept the grid cell is rewritten,
    event_id := now_ms(), a pending entry with all-false acks is stored
    under event_id (a plain dict assignment, so a colliding id overwrites),
    and ACQUIRE_EVENT is broadcast to every client; the returned flag is
    the terminal all-cells-ACQUIRED test that triggers the final delta and
    GAME_OVER broadcast (winner as in computeWinner). -/
def handle_acquire_request (st : ServerState) (r : Req) (now : Nat) :
    ServerState × Bool :=
  if inRange r.cell then
    if acceptClaim (st.grid r.cell) r.ts then
      let grid2 : Grid := fun rc =>
        if rc = r.cell then ⟨CellState.ACQUIRED, some r.pid, r.ts⟩ else st.grid rc
      let entry : EventEntry :=
        ⟨st.clients.map fun cli => (cli, false), ⟨r.cell, r.pid, now⟩⟩
      ({ st with
          grid := grid2,
          pending_acquire_events := setKey st.pending_acquire_events now entry },
        allAcquired grid2)
    else (st, false)
  else (st, false)

/-- C9 counterexample: two distinct acquisitions accepted at the same
    now_ms() millisecond (cells (0,0) and (0,1), both claims accepted) get
    the same event_id 100, and the second pending-table insert overwrites
    the first: afterwards the table holds a single entry, the second one. -/
theorem event_id_collision_overwrites :
    ((handle_acquire_request
        ((handle_acquire_request ⟨initGrid, [], []⟩ ⟨(0, 0), 1, 5⟩ 100).1)
        ⟨(0, 1), 2, 5⟩ 100).1).pending_acquire_events =
      [(100, ⟨[], ⟨(0, 1), 2, 100⟩⟩)] ∧
    (((handle_acquire_request
        ((handle_acquire_request ⟨initGrid, [], []⟩ ⟨(0, 0), 1, 5⟩ 100).1)
        ⟨(0, 1), 2, 5⟩ 100).1).grid (0, 0)).state = CellState.ACQUIRED ∧
    (((handle_acquire_request
        ((handle_acquire_request ⟨initGrid, [], []⟩ ⟨(0, 0), 1, 5⟩ 100).1)
        ⟨(0, 1), 2, 5⟩ 100).1).grid (0, 1)).state = CellState.ACQUIRED := by
  refine ⟨by decide, by decide, by decide⟩

/-- C9 (amended): event ids are the now_ms() value at acceptance, so two
    accepted acquisitions get distinct event ids exactly when their
    acceptances fall in distinct milliseconds; in that case the second
    insert leaves the first pending entry in place, while an equal
    millisecond would overwrite it. -/
theorem event_ids_distinct_across_millis (st : ServerState) (r1 r2 : Req)
    (n1 n2 : Nat)
    (h1 : inRange r1.cell = true)
    (hacc1 : acceptClaim (st.grid r1.cell) r1.ts)
    (h2 : inRange r2.cell = true)
    (hacc2 : acceptClaim ((handle_acquire_request st r1 n1).1.grid r2.cell) r2.ts)
    (hne : n1 ≠ n2) :
    lookupKey ((handle_acquire_request
        (handle_acquire_request st r1 n1).1 r2 n2).1).pending_acquire_events
      n1 = some ⟨st.clients.map fun cli => (cli, false), ⟨r1.cell, r1.pid, n1⟩⟩ ∧
    lookupKey ((handle_acquire_request
        (handle_acquire_request st r1 n1).1 r2 n2).1).pending_acquire_events
      n2 = some ⟨st.clients.map fun cli => (cli, false), ⟨r2.cell, r2.pid, n2⟩⟩ := by
  have e1 : (handle_acquire_request st r1 n1).1 =
      { st with
          grid := fun rc => if rc = r1.cell then
            ⟨CellState.ACQUIRED, some r1.pid, r1.ts⟩ else st.grid rc,
          pending_acquire_events := setKey st.pending_acquire_events n1
            ⟨st.clients.map fun cli => (cli, false), ⟨r1.cell, r1.pid, n1⟩⟩ } := by
    unfold handle_acquire_request
    rw [if_pos h1, if_pos hacc1]
  have e2 : (handle_acquire_request (handle_acquire_request st r1 n1).1 r2 n2).1 =
      { (handle_acquire_request st r1 n1).1 with
          grid := fun rc => if rc = r2.cell then
            ⟨CellState.ACQUIRED, some r2.pid, r2.ts⟩
            else (handle_acquire_request st r1 n1).1.grid rc,
          pending_acquire_events := setKey
            (handle_acquire_request st r1 n1).1.pending_acquire_events n2
            ⟨(handle_acquire_request st r1 n1).1.clients.map fun cli =>
              (cli, false), ⟨r2.cell, r2.pid, n2⟩⟩ } := by
    conv_lhs => rw [handle_acquire_request]
    rw [if_pos h2, if_pos hacc2]
  constructor
  · rw [e2]
    show lookupKey (setKey _ n2 _) n1 = _
    rw [lookupKey_setKey_ne _ _ _ _ (fun e => hne e.symm), e1]
    show lookupKey (setKey _ n1 _) n1 = _
    rw [lookupKey_setKey_self]
  · rw [e2]
    show lookupKey (setKey _ n2 _) n2 = _
    rw [lookupKey_setKey_self, e1]

theorem event_ids_distinct_across_millis_witness :
    lookupKey ((handle_acquire_request
        (handle_acquire_request ⟨initGrid, [], [6]⟩ ⟨(0, 0), 1, 5⟩ 100).1
        ⟨(0, 1), 2, 5⟩ 101).1).pending_acquire_events 100 =
      some ⟨[(6, false)], ⟨(0, 0), 1, 100⟩⟩ ∧
    lookupKey ((handle_acquire_request
        (handle_acquire_request ⟨initGrid, [], [6]⟩ ⟨(0, 0), 1, 5⟩ 100).1
        ⟨(0, 1), 2, 5⟩ 101).1).pending_acquire_events 101 =
      some ⟨[(6, false)], ⟨(0, 1), 2, 101⟩⟩ := by
  have h := event_ids_distinct_across_millis ⟨initGrid, [], [6]⟩
    ⟨(0, 0), 1, 5⟩ ⟨(0, 1), 2, 5⟩ 100 101 (by decide) (by decide) (by decide)
    (by decide) (by decide)
  exact h

end MLSP
